import Mathlib

/-!
Shallow embedding of `type_pilot.py` (class `WebResearchAssistant`): a
query-driven web-research pipeline.  Network services (the Bing search
provider, per-URL page fetches, the Gemini summarization endpoint) are
modelled as an explicit environment of responses; the HTML-parsing library
is modelled by handing the page fetcher an already-parsed node tree, as the
parser is an external collaborator.  A Python exception escaping a function
is modelled by `Option.none`; functions whose bodies cannot raise return
plain values.
-/

namespace TypePilot

/-- JSON values, as produced by `response.json()` in the source. -/
inductive Json where
  | null : Json
  | bool : Bool → Json
  | num : Int → Json
  | str : String → Json
  | arr : List Json → Json
  | obj : List (String × Json) → Json

/-- A parsed HTML node forest (a document is the forest of its top-level
nodes).  A forest is empty, or a text node followed by its siblings, or an
element — tag plus child forest — followed by its siblings.  This
first-child/next-sibling form is one-to-one with the usual list-of-rose-
trees view of the DOM and keeps every traversal structurally recursive. -/
inductive Forest where
  | nil : Forest
  | text : String → Forest → Forest
  | elem : String → Forest → Forest → Forest

/-- Concatenation of two forests (the second becomes the trailing
siblings of the first). -/
def Forest.append : Forest → Forest → Forest
  | .nil, g => g
  | .text s rest, g => .text s (Forest.append rest g)
  | .elem t cs rest, g => .elem t cs (Forest.append rest g)

/-- Python `d.get(key, default)`: `some` of the value (or the default) when
`d` is a dict, `none` (AttributeError raised) when it is any other value. -/
def dictGetD (j : Json) (key : String) (default : Json) : Option Json :=
  match j with
  | .obj fields => some ((fields.lookup key).getD default)
  | _ => none

/-- Python `d[key]` subscription: `none` models the KeyError on a missing
key and the TypeError on a non-dict value. -/
def dictIdx (j : Json) (key : String) : Option Json :=
  match j with
  | .obj fields => fields.lookup key
  | _ => none

/-- Python `l[i]` subscription on a JSON value: `none` models the IndexError
or TypeError raised when `j` is not a list holding an index `i`. -/
def listIdx (j : Json) (i : Nat) : Option Json :=
  match j with
  | .arr xs => xs.get? i
  | _ => none

/-- The dictionary built for each Bing entry (source line 35-38):
`{"url": result.get("url", ""), "title": result.get("name", "")}`.
Field values are whatever JSON values the entry carried; the code does not
check that they are strings. -/
structure SearchResult where
  url : Json
  title : Json

/-- Build one result dict from the fields of an entry that is a JSON
object: missing `url` / `name` keys default to the empty string. -/
def mkEntry (fields : List (String × Json)) : SearchResult :=
  { url := (fields.lookup "url").getD (.str "")
    title := (fields.lookup "name").getD (.str "") }

/-- The list comprehension's pass over the elements of `webPages.value`:
each object element contributes its field list; a non-object element
raises at `.get` (→ `none`), discarding the partial result. -/
def mapEntries : List Json → Option (List (List (String × Json)))
  | [] => some []
  | .obj f :: rest => (mapEntries rest).map (f :: ·)
  | _ :: _ => none

/-- Python `for result in v` where each element is then subscripted with
`.get`: iterating a JSON list of objects yields their field lists; a list
with a non-object element raises at `.get` (→ `none`); iterating an empty
string or empty object yields nothing; iterating a non-empty string or
object yields strings, which raise at `.get`; other values are not
iterable (TypeError). -/
def iterEntries : Json → Option (List (List (String × Json)))
  | .arr xs => mapEntries xs
  | .str s => if s.isEmpty then some [] else none
  | .obj f => if f.isEmpty then some [] else none
  | _ => none

/-- Outcome of one plain HTTP call (the search GET, the Gemini POST):
`raise` models an exception from the request itself (network error,
timeout); a response carries its status and, for the body, `some` parsed
JSON or `none` when `response.json()` raises. -/
inductive HttpOutcome where
  | raise : HttpOutcome
  | response : Nat → Option Json → HttpOutcome

/-- Outcome of one page fetch (`session.get(url, timeout=10)` plus the body
read and the HTML parse): `raise` models any exception during the request;
a response carries its status and, when the status is read, `some` parsed
document or `none` when reading/parsing the body raises.  The parsed
document is a node forest, since the HTML parser is an external library. -/
inductive FetchOutcome where
  | raise : FetchOutcome
  | response : Nat → Option Forest → FetchOutcome

/-- The network environment of one pipeline run: the search provider's
outcome for each query, each URL's fetch outcome (the fetch is keyed by the
JSON value stored under `url`, which the code passes to `session.get`
unchecked), and the Gemini endpoint's outcome for each prompt sent. -/
structure Env where
  searchResp : String → HttpOutcome
  fetch : Json → FetchOutcome
  gemini : String → HttpOutcome

/-! Character-level models of the Python string operations used by
`fetch_webpage_content` (`str.strip`, `str.split`, `' '.join`). -/

/-- Python `s.strip()`: drop whitespace from both ends. -/
def pyStripChars (cs : List Char) : List Char :=
  ((cs.dropWhile Char.isWhitespace).reverse.dropWhile Char.isWhitespace).reverse

/-- Python `s.split()` (no separator): split on runs of whitespace,
dropping empty pieces; `acc` holds the current word reversed. -/
def wordsAux : List Char → List Char → List (List Char)
  | [], acc => if acc.isEmpty then [] else [acc.reverse]
  | c :: cs, acc =>
      if c.isWhitespace then
        if acc.isEmpty then wordsAux cs []
        else acc.reverse :: wordsAux cs []
      else wordsAux cs (c :: acc)

/-- Python `' '.join(pieces)`: interleave a single space. -/
def joinSp : List (List Char) → List Char
  | [] => []
  | [w] => w
  | w :: ws => w ++ ' ' :: joinSp ws

/-- Model of `' '.join(text.split())` (source line 67), the whitespace
cleanup applied to the extracted page text. -/
def pyCollapse (s : String) : String :=
  ⟨joinSp (wordsAux s.data [])⟩

/-! The content extractor (source lines 57-72), fused inside
`fetch_webpage_content`. -/

/-- Tags whose whole subtree `soup([...])`/`decompose` removes
(source line 60). -/
def removedTags : List String := ["script", "style", "nav", "header", "footer"]

/-- Model of the decompose loop (source lines 60-61): every element whose
tag is in `removedTags` is removed together with its entire subtree. -/
def decomposeF : Forest → Forest
  | .nil => .nil
  | .text s rest => .text s (decomposeF rest)
  | .elem tag children rest =>
      if tag ∈ removedTags then decomposeF rest
      else .elem tag (decomposeF children) (decomposeF rest)

/-- Model of `soup.get_text(separator=' ', strip=True)`'s string
collection: each text node's string is stripped and kept only if
non-empty, in document order. -/
def collectTexts : Forest → List (List Char)
  | .nil => []
  | .text s rest =>
      if (pyStripChars s.data).isEmpty then collectTexts rest
      else pyStripChars s.data :: collectTexts rest
  | .elem _ children rest => collectTexts children ++ collectTexts rest

/-- Extraction pipeline of `fetch_webpage_content` on a parsed document
(source lines 60-72): decompose the unwanted subtrees, join the stripped
text nodes with single spaces, then collapse all whitespace runs. -/
def extractChars (doc : Forest) : List Char :=
  joinSp (wordsAux (joinSp (collectTexts (decomposeF doc))) [])

/-- Text extracted from a parsed document, as a string. -/
def extractDoc (doc : Forest) : String :=
  ⟨extractChars doc⟩

/-! The pipeline stages. -/

/-- Model of `search_bing` (source lines 14-43).  On a non-200 status it
logs and returns `[]`.  On status 200 it evaluates
`[{"url": r.get("url",""), "title": r.get("name","")} for r in
data.get("webPages", {}).get("value", [])]`; `none` models an exception
escaping — the function has no `try`, so a raised request, an unparseable
JSON body, `.get` on a non-dict, or iteration over a value whose elements
are not dicts all propagate. -/
def search_bing (env : Env) (query : String) : Option (List SearchResult) :=
  match env.searchResp query with
  | .raise => none
  | .response status body =>
      if status = 200 then do
        let data ← body
        let wp ← dictGetD data "webPages" (.obj [])
        let v ← dictGetD wp "value" (.arr [])
        let entries ← iterEntries v
        some (entries.map mkEntry)
      else
        some []

/-- Model of `fetch_webpage_content` (source lines 45-78).  The whole body
sits in a `try` whose handler returns `""`, so the function is total: a
raised request (`FetchOutcome.raise`) or a failed body read/parse yields
`""`, a non-200 status yields `""`, and a parsed document is run through
the content extractor. -/
def fetch_webpage_content (env : Env) (url : Json) : String :=
  match env.fetch url with
  | .raise => ""
  | .response status body =>
      if status = 200 then
        match body with
        | none => ""
        | some doc => extractDoc doc
      else ""

/-- Model of `parallel_webpage_scraping` (source lines 80-89):
`asyncio.gather` returns the per-task results in task order, then
`' '.join(filter(bool, contents))` keeps the non-empty strings. -/
def parallel_webpage_scraping (env : Env) (search_results : List SearchResult) : String :=
  let contents := search_results.map fun r => fetch_webpage_content env r.url
  ⟨joinSp ((contents.filter fun s => !s.isEmpty).map String.data)⟩

/-- The instruction text built by `summarize_with_gemini` (source lines
103-108): the f-string embeds the corpus after a fixed prefix (the
source's literal line breaks and 20-space indentation included). -/
def geminiPrompt (text : String) : String :=
  "Summarize this text in exactly 300 words. \n                    Extract and highlight key numbers, statistics, and important details.\n                    Ensure the summary is concise, clear, and captures the most significant information.\n                    \n                    Text to summarize:\n                    " ++ text

/-- The request payload built by `summarize_with_gemini` (source lines
100-111): `{"contents": [{"parts": [{"text": <instruction>}]}]}`. -/
def geminiPayload (text : String) : Json :=
  .obj [("contents", .arr [.obj [("parts", .arr [.obj [("text", .str (geminiPrompt text))]])]])]

/-- Model of `summarize_with_gemini` (source lines 91-125).  On a non-200
status it logs and returns `""`.  On status 200 it evaluates
`result['candidates'][0]['content']['parts'][0]['text']`; `none` models
the uncaught exception — the function has no `try`, so a raised POST, an
unparseable body, or any missing level of that chain propagates.  The
value under `'text'` is returned as-is: the code never checks it is a
string. -/
def summarize_with_gemini (env : Env) (text : String) : Option Json :=
  match env.gemini (geminiPrompt text) with
  | .raise => none
  | .response status body =>
      if status = 200 then do
        let result ← body
        let c ← dictIdx result "candidates"
        let c0 ← listIdx c 0
        let content ← dictIdx c0 "content"
        let parts ← dictIdx content "parts"
        let p0 ← listIdx parts 0
        dictIdx p0 "text"
      else
        some (.str "")

/-- The orchestrator with the summarization step abstracted, so that the
spec's stubbed-summarizer scenario is expressible: search, then scrape,
then summarize, linearly and with no retries. -/
def researchWith (summ : String → Option Json) (env : Env) (query : String) : Option Json :=
  (search_bing env query).bind fun search_results =>
    summ (parallel_webpage_scraping env search_results)

/-- Model of `research_and_summarize` (source lines 127-146): Bing search,
parallel scraping, Gemini summarization, in sequence.  `none` models an
exception escaping one of the stages (the orchestrator has no handler). -/
def research_and_summarize (env : Env) (query : String) : Option Json :=
  researchWith (summarize_with_gemini env) env query

/-! Auxiliary definitions used only to state properties (they embed no
source line on their own). -/

/-- Field list of a JSON object, `[]` on other values; total companion of
the object patterns accepted by `iterEntries`. -/
def objFieldsD : Json → List (String × Json)
  | .obj f => f
  | _ => []

/-- The text of each page of `search_results`, in input (task) order. -/
def scrapedTexts (env : Env) (search_results : List SearchResult) : List String :=
  search_results.map fun r => fetch_webpage_content env r.url

/-- Model of `asyncio.gather`'s result collection with an explicit
completion order: starting from an unfilled slot per task, each element
`j` of `order` is task `j` completing and writing its result into slot
`j`; the joined output then reads the slots in task order.  Used to state
that the aggregation does not depend on the completion order. -/
def scrapeWithCompletionOrder (env : Env) (search_results : List SearchResult)
    (order : List Nat) : String :=
  let texts := scrapedTexts env search_results
  let slots := order.foldl (fun acc j => acc.set j (some (texts.getD j "")))
    (List.replicate search_results.length none)
  let contents := slots.map fun o => o.getD ""
  ⟨joinSp ((contents.filter fun s => !s.isEmpty).map String.data)⟩

/-- Whether `needle` occurs at the start of `hay` (plain character
comparison). -/
def leadsWith : List Char → List Char → Bool
  | [], _ => true
  | _ :: _, [] => false
  | a :: as, b :: bs => a = b && leadsWith as bs

/-- Whether `needle` occurs contiguously anywhere in `hay`. -/
def containsSeg (needle : List Char) : List Char → Bool
  | [] => leadsWith needle []
  | c :: cs => leadsWith needle (c :: cs) || containsSeg needle cs

/-- The fixed instruction text in front of the embedded corpus, exactly as
the f-string of source lines 103-108 renders it. -/
def geminiPromptHead : String :=
  "Summarize this text in exactly 300 words. \n                    Extract and highlight key numbers, statistics, and important details.\n                    Ensure the summary is concise, clear, and captures the most significant information.\n                    \n                    Text to summarize:\n                    "

/-- A plain text wrapped in minimal HTML: `<html><body>text</body></html>`. -/
def wrapMinimal (s : String) : Forest :=
  .elem "html" (.elem "body" (.text s .nil) .nil) .nil

/-! Concrete environments used to evaluate the model on closed inputs. -/

/-- The parsed page `<html><body>Hello World</body></html>` of the spec's
end-to-end scenario. -/
def docHelloWorld : Forest :=
  .elem "html" (.elem "body" (.text "Hello World" .nil) .nil) .nil

/-- Environment of the spec's end-to-end scenario: the search provider
returns one entry for `http://a`, fetching `http://a` yields the
Hello-World page, and the summarizer is not consulted (the scenario stubs
it). -/
def envScenario : Env :=
  { searchResp := fun _ => .response 200 (some (.obj
      [("webPages", .obj [("value", .arr
        [.obj [("url", .str "http://a"), ("name", .str "A")]])])]))
    fetch := fun u => match u with
      | .str "http://a" => .response 200 (some docHelloWorld)
      | _ => .raise
    gemini := fun _ => .raise }

/-- Environment in which the search provider answers status 200 with
eleven entries. -/
def envEleven : Env :=
  { searchResp := fun _ => .response 200 (some (.obj
      [("webPages", .obj [("value", .arr (List.replicate 11 (.obj [])))])]))
    fetch := fun _ => .raise
    gemini := fun _ => .raise }

/-- Environment in which the Gemini endpoint answers status 200 with a
JSON object that lacks the `candidates` structure. -/
def envGeminiMalformed : Env :=
  { searchResp := fun _ => .response 404 none
    fetch := fun _ => .raise
    gemini := fun _ => .response 200 (some (.obj [])) }

/-- Environment in which every outbound call answers a non-200 status. -/
def envAll500 : Env :=
  { searchResp := fun _ => .response 500 none
    fetch := fun _ => .response 500 none
    gemini := fun _ => .response 500 none }

/-- Environment for the aggregation witness: three pages, whose fetches
yield "one", "" (a failed fetch) and "three". -/
def envThree : Env :=
  { searchResp := fun _ => .response 500 none
    fetch := fun u => match u with
      | .str "http://1" => .response 200 (some (.text "one" .nil))
      | .str "http://2" => .raise
      | .str "http://3" => .response 200 (some (.text "three" .nil))
      | _ => .raise
    gemini := fun _ => .raise }

/-- The three search results handed to the aggregation witness. -/
def resultsThree : List SearchResult :=
  [ { url := .str "http://1", title := .str "1" }
  , { url := .str "http://2", title := .str "2" }
  , { url := .str "http://3", title := .str "3" } ]

/-- Environment whose search response has one entry carrying only a
`name` field. -/
def envMissingUrl : Env :=
  { searchResp := fun _ => .response 200 (some (.obj
      [("webPages", .obj [("value", .arr [.obj [("name", .str "T")]])])]))
    fetch := fun _ => .raise
    gemini := fun _ => .raise }

/-- Environment whose 200 search body lacks the `webPages` key. -/
def envNoWebPages : Env :=
  { searchResp := fun _ => .response 200 (some (.obj [("irrelevant", .null)]))
    fetch := fun _ => .raise
    gemini := fun _ => .raise }

/-- Environment whose 200 search body has a `webPages` object lacking the
`value` key. -/
def envNoValue : Env :=
  { searchResp := fun _ => .response 200 (some (.obj
      [("webPages", .obj [("other", .null)])]))
    fetch := fun _ => .raise
    gemini := fun _ => .raise }

/-! Lemmas on the split/strip/join character operations. -/

/-- Splitting an all-whitespace tail yields nothing beyond the pending
word. -/
theorem wordsAux_all_ws (ws : List Char) (hws : ∀ c ∈ ws, c.isWhitespace) (acc : List Char) :
    wordsAux ws acc = if acc.isEmpty then [] else [acc.reverse] := by
  induction ws generalizing acc with
  | nil => rfl
  | cons c cs ih =>
      have hc : c.isWhitespace := hws c (by simp)
      have hws' : ∀ c ∈ cs, c.isWhitespace := fun c hm => hws c (by simp [hm])
      by_cases ha : acc.isEmpty <;> simp [wordsAux, hc, ha, ih hws']

/-- Appending an all-whitespace suffix does not change the split. -/
theorem wordsAux_append_ws (ws : List Char) (hws : ∀ c ∈ ws, c.isWhitespace) :
    ∀ cs acc, wordsAux (cs ++ ws) acc = wordsAux cs acc := by
  intro cs
  induction cs with
  | nil =>
      intro acc
      rw [List.nil_append, wordsAux_all_ws ws hws acc]
      rfl
  | cons c cs ih =>
      intro acc
      by_cases hc : c.isWhitespace <;> by_cases ha : acc.isEmpty <;>
        simp [wordsAux, hc, ha, ih]

/-- Dropping leading whitespace does not change the split. -/
theorem wordsAux_dropWhile (cs : List Char) :
    wordsAux (cs.dropWhile Char.isWhitespace) [] = wordsAux cs [] := by
  induction cs with
  | nil => rfl
  | cons c cs ih =>
      by_cases hc : c.isWhitespace <;> simp [List.dropWhile_cons, hc, wordsAux, ih]

/-- Every list splits as its back-stripped part plus an all-whitespace
tail. -/
theorem stripBack_decomp (cs : List Char) :
    cs = (cs.reverse.dropWhile Char.isWhitespace).reverse ++
        (cs.reverse.takeWhile Char.isWhitespace).reverse ∧
      ∀ c ∈ (cs.reverse.takeWhile Char.isWhitespace).reverse, c.isWhitespace := by
  constructor
  · have h := @List.takeWhile_append_dropWhile _ Char.isWhitespace cs.reverse
    conv_rhs => rw [← List.reverse_append, h, List.reverse_reverse]
  · intro c hc
    exact List.mem_takeWhile_imp (List.mem_reverse.mp hc)

/-- Python `strip` does not change `split`. -/
theorem wordsAux_pyStrip (cs : List Char) :
    wordsAux (pyStripChars cs) [] = wordsAux cs [] := by
  unfold pyStripChars
  obtain ⟨hd, hws⟩ := stripBack_decomp (cs.dropWhile Char.isWhitespace)
  calc wordsAux (((cs.dropWhile Char.isWhitespace).reverse.dropWhile Char.isWhitespace).reverse) []
      = wordsAux (((cs.dropWhile Char.isWhitespace).reverse.dropWhile Char.isWhitespace).reverse
          ++ ((cs.dropWhile Char.isWhitespace).reverse.takeWhile Char.isWhitespace).reverse) [] :=
        (wordsAux_append_ws _ hws _ _).symm
    _ = wordsAux (cs.dropWhile Char.isWhitespace) [] := by rw [← hd]
    _ = wordsAux cs [] := wordsAux_dropWhile cs

/-- When stripping leaves nothing, the split is empty. -/
theorem wordsAux_nil_of_strip_empty (cs : List Char) (h : (pyStripChars cs).isEmpty) :
    wordsAux cs [] = [] := by
  rw [← wordsAux_pyStrip]
  rcases he : pyStripChars cs with _ | ⟨c, cs'⟩
  · rfl
  · rw [he] at h
    simp at h

/-- Consuming a whitespace-free block prepends it (reversed) to the
pending word. -/
theorem wordsAux_word_block (w : List Char) (hw : ∀ c ∈ w, ¬ c.isWhitespace) :
    ∀ cs acc, wordsAux (w ++ cs) acc = wordsAux cs (w.reverse ++ acc) := by
  induction w with
  | nil => intro cs acc; simp
  | cons c w ih =>
      intro cs acc
      have hc : ¬ c.isWhitespace := hw c (by simp)
      have hw' : ∀ c ∈ w, ¬ c.isWhitespace := fun c hm => hw c (by simp [hm])
      simp [wordsAux, hc, ih hw']

/-- Every word produced by the split is non-empty and whitespace-free. -/
theorem wordsAux_good (cs : List Char) :
    ∀ acc, (∀ c ∈ acc, ¬ c.isWhitespace) →
      ∀ w ∈ wordsAux cs acc, ¬ w.isEmpty ∧ ∀ c ∈ w, ¬ c.isWhitespace := by
  induction cs with
  | nil =>
      intro acc hacc w hw
      by_cases ha : acc.isEmpty
      · simp [wordsAux, ha] at hw
      · simp [wordsAux, ha] at hw
        subst hw
        refine ⟨by simpa [List.isEmpty_iff] using ha, fun c hc => hacc c (List.mem_reverse.mp hc)⟩
  | cons c cs ih =>
      intro acc hacc w hw
      by_cases hc : c.isWhitespace
      · by_cases ha : acc.isEmpty
        · simp [wordsAux, hc, ha] at hw
          exact ih [] (by simp) w hw
        · simp [wordsAux, hc, ha] at hw
          rcases hw with hw | hw
          · subst hw
            refine ⟨by simpa [List.isEmpty_iff] using ha, fun c hcm => hacc c (List.mem_reverse.mp hcm)⟩
          · exact ih [] (by simp) w hw
      · simp [wordsAux, hc] at hw
        refine ih (c :: acc) ?_ w hw
        intro d hd
        rcases List.mem_cons.mp hd with h | h
        · subst h; exact hc
        · exact hacc d h

/-- Splitting the space-joined form of good words recovers the words. -/
theorem wordsAux_joinSp (ws : List (List Char))
    (h : ∀ w ∈ ws, ¬ w.isEmpty ∧ ∀ c ∈ w, ¬ c.isWhitespace) :
    wordsAux (joinSp ws) [] = ws := by
  induction ws with
  | nil => rfl
  | cons w ws ih =>
      obtain ⟨hne, hgood⟩ := h w (by simp)
      have h' : ∀ w ∈ ws, ¬ w.isEmpty ∧ ∀ c ∈ w, ¬ c.isWhitespace :=
        fun w hm => h w (by simp [hm])
      have hwne : w ≠ [] := by simpa [List.isEmpty_iff] using hne
      have hsp : (' ' : Char).isWhitespace = true := by decide
      cases ws with
      | nil =>
          show wordsAux w [] = [w]
          have hwb := wordsAux_word_block w hgood [] []
          rw [List.append_nil] at hwb
          rw [hwb]
          simp [wordsAux, List.isEmpty_iff, List.reverse_eq_nil_iff, hwne]
      | cons w2 ws2 =>
          show wordsAux (w ++ ' ' :: joinSp (w2 :: ws2)) [] = w :: w2 :: ws2
          rw [wordsAux_word_block w hgood]
          simp [wordsAux, hsp, ih h', List.isEmpty_iff, List.reverse_eq_nil_iff, hwne]

/-- The source's whitespace cleanup is idempotent. -/
theorem pyCollapse_idem (s : String) : pyCollapse (pyCollapse s) = pyCollapse s := by
  show (⟨joinSp (wordsAux (joinSp (wordsAux s.data [])) [])⟩ : String) = ⟨joinSp (wordsAux s.data [])⟩
  rw [wordsAux_joinSp (wordsAux s.data []) (wordsAux_good s.data [] (by simp))]

/-- Extracting from a plain text wrapped in minimal HTML yields the
whitespace-collapsed text. -/
theorem extractDoc_wrapMinimal (s : String) :
    extractDoc (wrapMinimal s) = pyCollapse s := by
  have hdec : decomposeF (wrapMinimal s) = wrapMinimal s := by
    simp [wrapMinimal, decomposeF, removedTags]
  show (⟨extractChars (wrapMinimal s)⟩ : String) = pyCollapse s
  unfold extractChars
  rw [hdec]
  by_cases h : (pyStripChars s.data).isEmpty
  · have hcol : collectTexts (wrapMinimal s) = [] := by
      simp [wrapMinimal, collectTexts, h]
    rw [hcol]
    show (⟨joinSp (wordsAux [] [])⟩ : String) = pyCollapse s
    unfold pyCollapse
    rw [wordsAux_nil_of_strip_empty s.data h]
    rfl
  · have hcol : collectTexts (wrapMinimal s) = [pyStripChars s.data] := by
      simp [wrapMinimal, collectTexts, h]
    rw [hcol]
    show (⟨joinSp (wordsAux (pyStripChars s.data) [])⟩ : String) = pyCollapse s
    unfold pyCollapse
    rw [wordsAux_pyStrip s.data]

/-- `decomposeF` distributes over forest concatenation. -/
theorem decomposeF_append (a b : Forest) :
    decomposeF (a.append b) = (decomposeF a).append (decomposeF b) := by
  induction a with
  | nil => rfl
  | text s rest ih => simp [Forest.append, decomposeF, ih]
  | elem tag children rest ihc ih =>
      by_cases h : tag ∈ removedTags <;> simp [Forest.append, decomposeF, h, ih]

/-- Decomposing drops a removed-tag element together with its whole
subtree. -/
theorem decomposeF_removed (tag : String) (h : tag ∈ removedTags)
    (inner rest : Forest) :
    decomposeF (.elem tag inner rest) = decomposeF rest := by
  simp [decomposeF, h]

/-- Iterating a JSON list whose elements are all objects yields their
field lists. -/
theorem iterEntries_all_obj (entries : List Json)
    (h : ∀ e ∈ entries, ∃ f, e = Json.obj f) :
    iterEntries (.arr entries) = some (entries.map objFieldsD) := by
  show mapEntries entries = some (entries.map objFieldsD)
  induction entries with
  | nil => rfl
  | cons e es ih =>
      obtain ⟨f, rfl⟩ := h e (by simp)
      have h' : ∀ e ∈ es, ∃ f, e = Json.obj f := fun e hm => h e (by simp [hm])
      simp [mapEntries, ih h', objFieldsD]

/-- Evaluation of `search_bing` on a 200 response whose body carries a
well-formed entry list. -/
theorem search_bing_eval (env : Env) (query : String) (body : Option Json)
    (fields g : List (String × Json)) (entries : List Json)
    (hresp : env.searchResp query = .response 200 body)
    (hbody : body = some (.obj fields))
    (hwp : fields.lookup "webPages" = some (.obj g))
    (hv : g.lookup "value" = some (.arr entries))
    (hwf : ∀ e ∈ entries, ∃ f, e = Json.obj f) :
    search_bing env query = some ((entries.map objFieldsD).map mkEntry) := by
  simp [search_bing, hresp, hbody, dictGetD, hwp, hv, iterEntries_all_obj entries hwf]

/-- On a 200 body that lacks `webPages`, or whose `webPages` object lacks
`value`, the defensive defaults produce the empty list. -/
theorem search_bing_defaults (env : Env) (query : String) (body : Option Json)
    (fields : List (String × Json))
    (hresp : env.searchResp query = .response 200 body)
    (hbody : body = some (.obj fields))
    (h : fields.lookup "webPages" = none ∨
      ∃ g, fields.lookup "webPages" = some (.obj g) ∧ g.lookup "value" = none) :
    search_bing env query = some [] := by
  rcases h with h | ⟨g, hwp, hv⟩
  · simp [search_bing, hresp, hbody, dictGetD, h, iterEntries, mapEntries]
  · simp [search_bing, hresp, hbody, dictGetD, hwp, hv, iterEntries, mapEntries]



/-- After processing completion events, a slot holds its task's result as
soon as that task appears among the events; untouched slots keep their
initial value. -/
theorem foldl_set_getElem (f : Nat → String) (order : List Nat) :
    ∀ (acc : List (Option String)), (∀ j ∈ order, j < acc.length) → ∀ i,
      (order.foldl (fun a j => a.set j (some (f j))) acc)[i]? =
        if i ∈ order then some (some (f i)) else acc[i]? := by
  induction order with
  | nil => intro acc _ i; simp
  | cons j order ih =>
      intro acc hb i
      have hj : j < acc.length := hb j (by simp)
      have hb' : ∀ k ∈ order, k < (acc.set j (some (f j))).length := by
        intro k hk
        simpa using hb k (by simp [hk])
      show (order.foldl (fun a j => a.set j (some (f j))) (acc.set j (some (f j))))[i]? = _
      rw [ih (acc.set j (some (f j))) hb' i]
      by_cases hio : i ∈ order
      · simp [hio]
      · by_cases hij : i = j
        · subst hij
          simp [hio, List.getElem?_set_eq_of_lt _ hj]
        · simp [hio, hij, List.getElem?_set_ne (fun h => hij h.symm)]

/-- The fold preserves the slot count. -/
theorem foldl_set_length (f : Nat → String) (order : List Nat) :
    ∀ (acc : List (Option String)),
      (order.foldl (fun a j => a.set j (some (f j))) acc).length = acc.length := by
  induction order with
  | nil => intro acc; rfl
  | cons j order ih => intro acc; simpa using ih (acc.set j (some (f j)))

/-- When every task index appears among the completion events, reading the
slots in task order recovers the task results in task order. -/
theorem foldl_set_fills (texts : List String) (order : List Nat)
    (hcov : ∀ i < texts.length, i ∈ order) (hb : ∀ j ∈ order, j < texts.length) :
    ((order.foldl (fun a j => a.set j (some (texts.getD j ""))) 
        (List.replicate texts.length none)).map fun o => o.getD "") = texts := by
  apply List.ext_getElem?
  intro i
  rw [List.getElem?_map]
  by_cases hi : i < texts.length
  · rw [foldl_set_getElem (fun j => texts.getD j "") order (List.replicate texts.length none)
      (by simpa using hb) i]
    simp [hcov i hi, List.getD_eq_getElem?_getD, List.getElem?_eq_getElem hi]
  · have h1 : (order.foldl (fun a j => a.set j (some (texts.getD j "")))
        (List.replicate texts.length none)).length = texts.length := by
      simpa using foldl_set_length (fun j => texts.getD j "") order (List.replicate texts.length none)
    rw [List.getElem?_eq_none (show (order.foldl (fun a j => a.set j (some (texts.getD j "")))
        (List.replicate texts.length none)).length ≤ i by rw [h1]; omega),
      List.getElem?_eq_none (show texts.length ≤ i by omega)]
    rfl



/-- A list starts with itself. -/
theorem leadsWith_refl (n : List Char) : leadsWith n n = true := by
  induction n with
  | nil => rfl
  | cons c cs ih => simp [leadsWith, ih]

/-- A leading occurrence survives extending the text to the right. -/
theorem leadsWith_extend (n : List Char) :
    ∀ h t, leadsWith n h = true → leadsWith n (h ++ t) = true := by
  induction n with
  | nil => intro h t _; rfl
  | cons a as ih =>
      intro h t hp
      cases h with
      | nil => simp [leadsWith] at hp
      | cons b bs =>
          simp [leadsWith] at hp ⊢
          exact ⟨hp.1, ih bs t hp.2⟩

/-- The empty segment occurs everywhere. -/
theorem containsSeg_nil_needle : ∀ t, containsSeg [] t = true := by
  intro t
  cases t with
  | nil => rfl
  | cons c cs => simp [containsSeg, leadsWith]

/-- An occurrence survives extending the text to the right. -/
theorem containsSeg_extend (n : List Char) :
    ∀ h t, containsSeg n h = true → containsSeg n (h ++ t) = true := by
  intro h
  induction h with
  | nil =>
      intro t hc
      cases n with
      | nil => exact containsSeg_nil_needle t
      | cons a as => simp [containsSeg, leadsWith] at hc
  | cons b bs ih =>
      intro t hc
      simp only [containsSeg, Bool.or_eq_true] at hc
      rcases hc with hc | hc
      · have := leadsWith_extend n (b :: bs) t hc
        simp only [List.cons_append, containsSeg, Bool.or_eq_true] at this ⊢
        left
        simpa using this
      · simp only [List.cons_append, containsSeg, Bool.or_eq_true]
        right
        exact ih t hc

/-- A list occurs at the end of any extension of itself to the left. -/
theorem containsSeg_at_end (n h : List Char) : containsSeg n (h ++ n) = true := by
  induction h with
  | nil =>
      simp only [List.nil_append]
      cases n with
      | nil => rfl
      | cons c cs => simp [containsSeg, leadsWith_refl]
  | cons b bs ih => simp [containsSeg, ih]


/-! The claims.  Each claim of the specification audit gets one theorem
(with, where the statement carries hypotheses, one closed witness that
instantiates it). -/

set_option maxRecDepth 8192

/-- C1 counterexample: the claim "no exception or error value crosses the
component's boundary; in particular summarize_with_gemini and search_bing
never raise" is false.  On a status-200 Gemini response whose JSON body
lacks the `candidates` structure, `result['candidates']` raises an
uncaught KeyError, modelled by the `none` result: the exception crosses
`summarize_with_gemini`'s boundary. -/
theorem claim1_counterexample :
    summarize_with_gemini envGeminiMalformed "" = none := rfl

/-- C1 (amended): each stage converts a non-success status into a silent
empty value (`[]` for search, `""` for fetch and summarize), and the page
fetcher also converts a raised request and a failed body read/parse into
`""`; transport failures and malformed success responses in the Search
Client and Summarizer, by contrast, escape as exceptions. -/
theorem claim1_amended :
    (∀ (env : Env) (q : String) (st : Nat) (body : Option Json),
        env.searchResp q = .response st body → st ≠ 200 → search_bing env q = some [])
    ∧ (∀ (env : Env) (url : Json), env.fetch url = .raise →
        fetch_webpage_content env url = "")
    ∧ (∀ (env : Env) (url : Json) (st : Nat) (body : Option Forest),
        env.fetch url = .response st body → st ≠ 200 → fetch_webpage_content env url = "")
    ∧ (∀ (env : Env) (url : Json), env.fetch url = .response 200 none →
        fetch_webpage_content env url = "")
    ∧ (∀ (env : Env) (t : String) (st : Nat) (body : Option Json),
        env.gemini (geminiPrompt t) = .response st body → st ≠ 200 →
        summarize_with_gemini env t = some (.str "")) := by
  refine ⟨?_, ?_, ?_, ?_, ?_⟩
  · intro env q st body h hst; simp [search_bing, h, hst]
  · intro env url h; simp [fetch_webpage_content, h]
  · intro env url st body h hst; simp [fetch_webpage_content, h, hst]
  · intro env url h; simp [fetch_webpage_content, h]
  · intro env t st body h hst; simp [summarize_with_gemini, h, hst]

/-- C1 witness: in the all-500 environment every stage returns its empty
value. -/
theorem claim1_witness :
    search_bing envAll500 "q" = some []
    ∧ fetch_webpage_content envAll500 (.str "u") = ""
    ∧ summarize_with_gemini envAll500 "" = some (.str "") :=
  ⟨claim1_amended.1 envAll500 "q" 500 none rfl (by decide),
   claim1_amended.2.2.1 envAll500 (.str "u") 500 none rfl (by decide),
   claim1_amended.2.2.2.2 envAll500 "" 500 none rfl (by decide)⟩

/-- C2 counterexample: the claim "for every search-provider response the
returned sequence has length at most 10" is false.  The code sends
`count=10` but never truncates the response: eleven entries give eleven
results. -/
theorem claim2_counterexample :
    search_bing envEleven "q" = some (List.replicate 11 (mkEntry []))
    ∧ ¬ (List.replicate 11 (mkEntry [])).length ≤ 10 :=
  ⟨rfl, by decide⟩

/-- C2 (amended): the returned sequence has one element per entry of the
response, so it has length at most 10 whenever the provider honours the
requested `count=10` and returns at most 10 entries. -/
theorem claim2_amended (env : Env) (query : String) (body : Option Json)
    (fields g : List (String × Json)) (entries : List Json)
    (hresp : env.searchResp query = .response 200 body)
    (hbody : body = some (.obj fields))
    (hwp : fields.lookup "webPages" = some (.obj g))
    (hv : g.lookup "value" = some (.arr entries))
    (hwf : ∀ e ∈ entries, ∃ f, e = Json.obj f)
    (hn : entries.length ≤ 10) :
    ∃ rs, search_bing env query = some rs ∧ rs.length ≤ 10 :=
  ⟨_, search_bing_eval env query body fields g entries hresp hbody hwp hv hwf,
    by simpa using hn⟩

/-- C2 witness: the one-entry scenario response yields at most 10
results. -/
theorem claim2_witness :
    ∃ rs, search_bing envScenario "test" = some rs ∧ rs.length ≤ 10 :=
  claim2_amended envScenario "test"
    (some (.obj [("webPages", .obj [("value",
      .arr [.obj [("url", .str "http://a"), ("name", .str "A")]])])]))
    [("webPages", .obj [("value", .arr [.obj [("url", .str "http://a"), ("name", .str "A")]])])]
    [("value", .arr [.obj [("url", .str "http://a"), ("name", .str "A")]])]
    [.obj [("url", .str "http://a"), ("name", .str "A")]]
    rfl rfl rfl rfl
    (fun e he => ⟨[("url", .str "http://a"), ("name", .str "A")], by simpa using he⟩)
    (by decide)

/-- C3: a 200 response with N well-formed entries yields exactly the N
results in response order, each built by `mkEntry`, and `mkEntry` defaults
a missing `url` or `name` field to the empty string. -/
theorem claim3_search_results (env : Env) (query : String) (body : Option Json)
    (fields g : List (String × Json)) (entries : List Json)
    (hresp : env.searchResp query = .response 200 body)
    (hbody : body = some (.obj fields))
    (hwp : fields.lookup "webPages" = some (.obj g))
    (hv : g.lookup "value" = some (.arr entries))
    (hwf : ∀ e ∈ entries, ∃ f, e = Json.obj f)
    (hn : entries.length ≤ 10) :
    search_bing env query = some ((entries.map objFieldsD).map mkEntry)
    ∧ ((entries.map objFieldsD).map mkEntry).length = entries.length
    ∧ ∀ f : List (String × Json),
        (f.lookup "url" = none → (mkEntry f).url = .str "")
        ∧ (f.lookup "name" = none → (mkEntry f).title = .str "") := by
  refine ⟨search_bing_eval env query body fields g entries hresp hbody hwp hv hwf,
    by simp, ?_⟩
  intro f
  constructor
  · intro h; simp [mkEntry, h]
  · intro h; simp [mkEntry, h]

/-- C3 witness: one entry carrying only `name` produces one result whose
`url` is the empty string. -/
theorem claim3_witness :
    search_bing envMissingUrl "q" = some [{ url := Json.str "", title := Json.str "T" }] :=
  (claim3_search_results envMissingUrl "q"
    (some (.obj [("webPages", .obj [("value", .arr [.obj [("name", .str "T")]])])]))
    [("webPages", .obj [("value", .arr [.obj [("name", .str "T")]])])]
    [("value", .arr [.obj [("name", .str "T")]])]
    [.obj [("name", .str "T")]]
    rfl rfl rfl rfl
    (fun e he => ⟨[("name", .str "T")], by simpa using he⟩)
    (by decide)).1
/-- C4: the aggregation is independent of the completion order of the
fetches — any completion schedule that eventually completes every task
produces the same corpus as reading the tasks in input order — the corpus
is the single-space join of exactly the non-empty per-URL texts in input
order, and when every per-URL text is empty the corpus is the empty
string. -/
theorem claim4_aggregator (env : Env) (results : List SearchResult) (order : List Nat)
    (hcov : ∀ i < results.length, i ∈ order)
    (hb : ∀ j ∈ order, j < results.length) :
    scrapeWithCompletionOrder env results order = parallel_webpage_scraping env results
    ∧ parallel_webpage_scraping env results =
        ⟨joinSp (((scrapedTexts env results).filter fun s => !s.isEmpty).map String.data)⟩
    ∧ ((∀ t ∈ scrapedTexts env results, t = "") →
        parallel_webpage_scraping env results = "") := by
  have hlen : (scrapedTexts env results).length = results.length := by
    simp [scrapedTexts]
  refine ⟨?_, rfl, ?_⟩
  · unfold scrapeWithCompletionOrder
    dsimp only
    rw [show List.replicate results.length (none : Option String)
        = List.replicate (scrapedTexts env results).length none by rw [hlen]]
    rw [foldl_set_fills (scrapedTexts env results) order
      (fun i hi => hcov i (by omega)) (fun j hj => by rw [hlen]; exact hb j hj)]
    rfl
  · intro hall
    have hfil : (scrapedTexts env results).filter (fun s => !s.isEmpty) = [] := by
      rw [List.filter_eq_nil_iff]
      intro a ha
      rw [hall a ha]
      decide
    show (⟨joinSp (((scrapedTexts env results).filter fun s => !s.isEmpty).map String.data)⟩
      : String) = ""
    rw [hfil]
    rfl

/-- C4 witness: three fetches completing in reverse order still aggregate
in input order; the middle fetch fails and is skipped. -/
theorem claim4_witness :
    scrapeWithCompletionOrder envThree resultsThree [2, 1, 0]
      = parallel_webpage_scraping envThree resultsThree
    ∧ parallel_webpage_scraping envThree resultsThree = "one three" :=
  ⟨(claim4_aggregator envThree resultsThree [2, 1, 0]
      (by decide) (by decide)).1, rfl⟩

/-- C5: `fetch_webpage_content` returns the empty string on every failure
mode — a raised request/read/parse (all sit inside its `try`) and a
non-200 status — and, being total with result type `String`, lets no
exception cross its boundary. -/
theorem claim5_fetch_never_raises (env : Env) (url : Json) :
    (env.fetch url = .raise → fetch_webpage_content env url = "")
    ∧ (∀ st body, env.fetch url = .response st body → st ≠ 200 →
        fetch_webpage_content env url = "")
    ∧ (env.fetch url = .response 200 none → fetch_webpage_content env url = "") := by
  refine ⟨?_, ?_, ?_⟩
  · intro h; simp [fetch_webpage_content, h]
  · intro st body h hst; simp [fetch_webpage_content, h, hst]
  · intro h; simp [fetch_webpage_content, h]

/-- C5 witness: a raised fetch and a 500 fetch both yield the empty
string. -/
theorem claim5_witness :
    fetch_webpage_content envThree (.str "http://2") = ""
    ∧ fetch_webpage_content envAll500 (.str "u") = "" :=
  ⟨(claim5_fetch_never_raises envThree (.str "http://2")).1 rfl,
   (claim5_fetch_never_raises envAll500 (.str "u")).2.1 500 none rfl (by decide)⟩

/-- C6: removing happens before extraction and takes the whole subtree:
for any of the removed tags, an element with that tag contributes nothing
to the extracted text wherever it sits at top level; in particular
`<nav>X</nav>Y` extracts to `Y`, which contains no `X`. -/
theorem claim6_removed_subtrees :
    (∀ tag, tag ∈ removedTags → ∀ pre inner post : Forest,
        extractDoc (pre.append (.elem tag inner post)) = extractDoc (pre.append post))
    ∧ extractDoc (.elem "nav" (.text "X" .nil) (.text "Y" .nil)) = "Y" := by
  constructor
  · intro tag h pre inner post
    unfold extractDoc extractChars
    rw [decomposeF_append, decomposeF_removed tag h, ← decomposeF_append]
  · rfl

/-- C6 witness: the general removal theorem applied at `<nav>X</nav>Y`. -/
theorem claim6_witness :
    extractDoc (Forest.append .nil (.elem "nav" (.text "X" .nil) (.text "Y" .nil)))
      = extractDoc (Forest.append .nil (.text "Y" .nil)) :=
  claim6_removed_subtrees.1 "nav" (by decide) .nil (.text "X" .nil) (.text "Y" .nil)

/-- C7: extracting a plain text wrapped in minimal HTML yields exactly the
text with every whitespace run collapsed to one space and the ends
trimmed (`pyCollapse`, the source's own `' '.join(text.split())`), and the
extractor is idempotent-equivalent on already-normalized text. -/
theorem claim7_extract_normalized (s : String) :
    extractDoc (wrapMinimal s) = pyCollapse s
    ∧ extractDoc (wrapMinimal (pyCollapse s)) = pyCollapse s :=
  ⟨extractDoc_wrapMinimal s,
   by rw [extractDoc_wrapMinimal, pyCollapse_idem]⟩




/-- C8 counterexample: the claim that the instruction requests the summary
"presented as bullet points/tables where numerical data exists" is false —
the instruction sent (here for the empty corpus; by `claim8_prompt` it is
a fixed prefix plus the corpus) contains no occurrence of "bullet" or
"table" in either case. -/
theorem claim8_counterexample :
    containsSeg "bullet".data (geminiPrompt "").data = false
    ∧ containsSeg "Bullet".data (geminiPrompt "").data = false
    ∧ containsSeg "table".data (geminiPrompt "").data = false
    ∧ containsSeg "Table".data (geminiPrompt "").data = false :=
  ⟨by decide, by decide, by decide, by decide⟩

/-- C8 (amended): for every corpus the summarizer builds the fixed
instruction `geminiPromptHead ++ corpus` — embedding the corpus verbatim,
requesting an exactly-300-word summary, and asking to extract and
highlight key numbers, statistics and important details — and the request
payload carries exactly that instruction under
`contents[0].parts[0].text`; the instruction does not mention bullet
points or tables. -/
theorem claim8_prompt (text : String) :
    geminiPrompt text = geminiPromptHead ++ text
    ∧ geminiPayload text = .obj [("contents", .arr [.obj [("parts",
        .arr [.obj [("text", .str (geminiPrompt text))]])]])]
    ∧ containsSeg text.data (geminiPrompt text).data = true
    ∧ containsSeg "Summarize this text in exactly 300 words".data
        (geminiPrompt text).data = true
    ∧ containsSeg "Extract and highlight key numbers, statistics, and important details".data
        (geminiPrompt text).data = true := by
  refine ⟨rfl, rfl, ?_, ?_, ?_⟩
  · show containsSeg text.data (geminiPromptHead.data ++ text.data) = true
    exact containsSeg_at_end text.data geminiPromptHead.data
  · show containsSeg "Summarize this text in exactly 300 words".data
      (geminiPromptHead.data ++ text.data) = true
    exact containsSeg_extend _ geminiPromptHead.data text.data (by decide)
  · show containsSeg "Extract and highlight key numbers, statistics, and important details".data
      (geminiPromptHead.data ++ text.data) = true
    exact containsSeg_extend _ geminiPromptHead.data text.data (by decide)

/-- C9: the orchestrator is exactly the composition
summarize ∘ aggregate ∘ search, with no retry and no branching, and in the
spec's end-to-end scenario (one result for `http://a` whose page is
`<html><body>Hello World</body></html>`, summarizer stubbed to echo) it
returns "Hello World". -/
theorem claim9_orchestrator :
    (∀ (env : Env) (q : String), research_and_summarize env q =
        (search_bing env q).bind fun rs =>
          summarize_with_gemini env (parallel_webpage_scraping env rs))
    ∧ (∀ (summ : String → Option Json) (env : Env) (q : String),
        researchWith summ env q = (search_bing env q).bind fun rs =>
          summ (parallel_webpage_scraping env rs))
    ∧ researchWith (fun s => some (.str s)) envScenario "test" = some (.str "Hello World") :=
  ⟨fun _ _ => rfl, fun _ _ _ => rfl, rfl⟩

/-- C10: on a 200 response whose body lacks `webPages`, or whose
`webPages` object lacks `value`, the nested defensive `.get` chain
defaults each missing level and `search_bing` returns the empty list
without raising. -/
theorem claim10_defensive_get (env : Env) (query : String) (body : Option Json)
    (fields : List (String × Json))
    (hresp : env.searchResp query = .response 200 body)
    (hbody : body = some (.obj fields))
    (h : fields.lookup "webPages" = none ∨
      ∃ g, fields.lookup "webPages" = some (.obj g) ∧ g.lookup "value" = none) :
    search_bing env query = some [] :=
  search_bing_defaults env query body fields hresp hbody h

/-- C10 witness: a body without `webPages`, and a body whose `webPages`
lacks `value`, both yield the empty result list. -/
theorem claim10_witness :
    search_bing envNoWebPages "q" = some []
    ∧ search_bing envNoValue "q" = some [] :=
  ⟨claim10_defensive_get envNoWebPages "q" (some (.obj [("irrelevant", .null)]))
      [("irrelevant", .null)] rfl rfl (Or.inl rfl),
   claim10_defensive_get envNoValue "q"
      (some (.obj [("webPages", .obj [("other", .null)])]))
      [("webPages", .obj [("other", .null)])] rfl rfl
      (Or.inr ⟨[("other", .null)], rfl, rfl⟩)⟩

end TypePilot
